import Mathlib

/-!
# Go-Stock-Scraper: a shallow embedding of `main.go`

The program visits five fixed quote pages with a colly collector, turns every
`div.container` element of a fetched page into a `Stock` record, and finally
writes the records to `stocks.csv` through an `encoding/csv` writer.

The embedding is pure state passing.  Everything the program obtains from the
outside (the outcome of each HTTP fetch, the redirects the HTTP client follows
on the way, the outcome of `os.Create`) is an explicit input (`Env`);
everything it leaves behind (console lines, the GET requests issued, the CSV
file, the exit code) is an explicit output.
-/

namespace StockScraper

/-! ## Strings -/

/-- Go `unicode.IsSpace`: the Latin-1 spaces and the Unicode `Z` category. -/
def isSpace (c : Char) : Bool :=
  let n := c.toNat
  n == 0x09 || n == 0x0A || n == 0x0B || n == 0x0C || n == 0x0D || n == 0x20 ||
  n == 0x85 || n == 0xA0 || n == 0x1680 || (0x2000 ≤ n && n ≤ 0x200A) ||
  n == 0x2028 || n == 0x2029 || n == 0x202F || n == 0x205F || n == 0x3000

/-- Go `strings.TrimSpace`: drop leading and trailing white space. -/
def TrimSpace (s : String) : String :=
  String.mk ((s.data.dropWhile isSpace).reverse.dropWhile isSpace).reverse

/-! ## The parsed HTML document (golang.org/x/net/html, goquery, cascadia) -/

/-- A run of sibling nodes, linked as `html.Node` links them: every node holds
its first child and its next sibling.  Only text and element nodes carry
anything the program can observe. -/
inductive Nodes where
  | none : Nodes
  | text (data : String) (nextSibling : Nodes) : Nodes
  | element (tag : String) (attr : List (String × String))
      (firstChild : Nodes) (nextSibling : Nodes) : Nodes
  deriving DecidableEq, Repr

/-- One element node: what a goquery selection of a single node, and so a
colly `HTMLElement`, gives access to. -/
structure HTMLElement where
  tag : String
  attr : List (String × String)
  firstChild : Nodes
  deriving DecidableEq, Repr

/-- The three selector shapes the program uses: a tag name, optionally with a
class (`div.container`) or with an attribute value
(`fin-streamer[data-field='regularMarketPrice']`). -/
structure Selector where
  tag : String
  cls : Option String
  attrEq : Option (String × String)
  deriving DecidableEq, Repr

/-- The cascadia `matchInclude` loop: does the white-space separated list `s`
contain the word `val`?  `cur` is the word being read, reversed. -/
def matchIncludeAux (val : List Char) : List Char → List Char → Bool
  | cur, [] => !cur.isEmpty && cur.reverse == val
  | cur, c :: cs =>
    if c == ' ' || c == '\t' || c == '\r' || c == '\n' || c == '\x0c' then
      cur.reverse == val || matchIncludeAux val [] cs
    else matchIncludeAux val (c :: cur) cs

/-- Does the class attribute value `s` include the class `val`? -/
def matchInclude (val s : String) : Bool :=
  matchIncludeAux val.data [] s.data

/-- Does an element with this tag and these attributes match the selector? -/
def Selector.matchesNode (sel : Selector) (tag : String) (attr : List (String × String)) : Bool :=
  tag == sel.tag &&
  (match sel.cls with
   | Option.none => true
   | some c => attr.any (fun kv => kv.1 == "class" && matchInclude c kv.2)) &&
  (match sel.attrEq with
   | Option.none => true
   | some (k, v) => attr.any (fun kv => kv.1 == k && kv.2 == v))

/-- The cascadia `MatchAll` over a run of siblings: every matching element of
the forest, in document order (a node before its descendants, a subtree
before the next sibling). -/
def matchAll (sel : Selector) : Nodes → List HTMLElement
  | Nodes.none => []
  | Nodes.text _ next => matchAll sel next
  | Nodes.element tag attr child next =>
    (if sel.matchesNode tag attr then [⟨tag, attr, child⟩] else []) ++
      (matchAll sel child ++ matchAll sel next)

/-- The text content of a forest: its text nodes, concatenated in document order. -/
def nodesText : Nodes → String
  | Nodes.none => ""
  | Nodes.text data next => data ++ nodesText next
  | Nodes.element _ _ child next => nodesText child ++ nodesText next

/-- The goquery `Selection.Find` on one element: its matching descendants. -/
def HTMLElement.Find (e : HTMLElement) (sel : Selector) : List HTMLElement :=
  matchAll sel e.firstChild

/-- The goquery `Selection.Text`: the text contents of the selected nodes, joined. -/
def selectionText (es : List HTMLElement) : String :=
  es.foldl (fun acc e => acc ++ nodesText e.firstChild) ""

/-- The colly `HTMLElement.ChildText`: the trimmed text of the matching descendants. -/
def HTMLElement.ChildText (e : HTMLElement) (sel : Selector) : String :=
  TrimSpace (selectionText (e.Find sel))

/-! ## The program's data -/

/-- The record `Stock` of `main.go`. -/
structure Stock where
  company : String
  price : String
  change : String
  deriving DecidableEq, Repr

/-- The package variable `ticker`. -/
def ticker : List String := ["MSFT", "IBM", "AAPL", "GOOG", "AMZN"]

/-- The URL `main` builds for one symbol. -/
def quoteURL (t : String) : String := "https://finance.yahoo.com/quote/" ++ t ++ "/"

/-- Selector `div.container`. -/
def selContainer : Selector := ⟨"div", some "container", Option.none⟩

/-- Selector `h1`. -/
def selCompany : Selector := ⟨"h1", Option.none, Option.none⟩

/-- Selector `fin-streamer[data-field='regularMarketPrice']`. -/
def selPrice : Selector := ⟨"fin-streamer", Option.none, some ("data-field", "regularMarketPrice")⟩

/-- Selector `fin-streamer[data-field='regularMarketChangePercent']`. -/
def selChange : Selector :=
  ⟨"fin-streamer", Option.none, some ("data-field", "regularMarketChangePercent")⟩

/-- A line on the console (standard output, or the standard logger). -/
inductive Event where
  | visiting (url : String)
  | errorOccurred (err : String)
  | scraped (stock : Stock)
  | dataSaved
  | fatalCreate (err : String)
  deriving DecidableEq, Repr

/-- What one fetch gives: an error colly hands to the `OnError` callbacks
(transport failure, HTTP error status, unreadable body), or the parsed document
of the response (a response that is not HTML runs no callback, as a document
without elements does). -/
inductive FetchResult where
  | error (err : String)
  | ok (doc : Nodes)
  deriving DecidableEq, Repr

/-- The outside world of one run: what each URL answers in the end, the URLs
the HTTP client is redirected to before that answer (colly follows redirects
inside the one `Visit`, without running `OnRequest` again), and the error of
`os.Create("stocks.csv")` when it fails. -/
structure Env where
  fetch : String → FetchResult
  redirects : String → List String
  createErr : Option String

/-- The collector together with the captured `stocks` slice: `visited` holds
the URLs `Visit` has accepted, `requests` every GET sent, redirects included. -/
structure Scraper where
  stocks : List Stock
  visited : List String
  requests : List String
  console : List Event
  deriving DecidableEq, Repr

/-! ## `setupCallbacks` -/

/-- The `OnRequest` callback: one console line. -/
def onRequest (s : Scraper) (url : String) : Scraper :=
  { s with console := s.console ++ [Event.visiting url] }

/-- The `OnError` callback: one log line, nothing else. -/
def onError (s : Scraper) (err : String) : Scraper :=
  { s with console := s.console ++ [Event.errorOccurred err] }

/-- The record the `OnHTML` callback builds from one `div.container` element. -/
def mkStock (e : HTMLElement) : Stock :=
  { company := e.ChildText selCompany
    price := e.ChildText selPrice
    change := e.ChildText selChange }

/-- The `OnHTML` callback: build the record, print it, append it to `*stocks`. -/
def onHTML (s : Scraper) (e : HTMLElement) : Scraper :=
  let stock := mkStock e
  { s with console := s.console ++ [Event.scraped stock], stocks := s.stocks ++ [stock] }

/-! ## The collector -/

/-- The colly `handleOnHTML`: run the callback on every element of the document
that matches the registered selector, in document order. -/
def handleOnHTML (s : Scraper) (doc : Nodes) : Scraper :=
  (matchAll selContainer doc).foldl onHTML s

/-- The colly `fetch`: `OnRequest`, the GET to the URL and to every redirect
target the client follows, then `OnError` or the HTML callbacks. -/
def fetch (env : Env) (s : Scraper) (url : String) : Scraper :=
  let s := onRequest s url
  let s := { s with requests := s.requests ++ url :: env.redirects url }
  match env.fetch url with
  | FetchResult.error err => onError s err
  | FetchResult.ok doc => handleOnHTML s doc

/-- The call `c.Visit(url)`; its error result is dropped by `main`.  A URL the
collector has already visited is refused before any request is made. -/
def Visit (env : Env) (s : Scraper) (url : String) : Scraper :=
  if url ∈ s.visited then s
  else fetch env { s with visited := s.visited ++ [url] } url

/-- The loop of `main` over a list of symbols. -/
def visitAll (env : Env) (s : Scraper) (ts : List String) : Scraper :=
  ts.foldl (fun s t => Visit env s (quoteURL t)) s

/-- The state `main` starts from: `stocks := []Stock{}` and a new collector. -/
def Scraper.init : Scraper := ⟨[], [], [], []⟩

/-- The first part of `main`: set up, visit every ticker, wait. -/
def scrape (env : Env) : Scraper := visitAll env Scraper.init ticker

/-! ## `encoding/csv` -/

/-- The double quote character. -/
def quoteChar : Char := Char.ofNat 34

/-- Go `Writer.fieldNeedsQuotes` with the default comma. -/
def fieldNeedsQuotes (field : String) : Bool :=
  match field.data with
  | [] => false
  | c :: cs =>
    if field == "\\." then true
    else (c :: cs).any (fun x => x == ',' || x == quoteChar || x == '\r' || x == '\n') || isSpace c

/-- One field as `Writer.Write` puts it out (`UseCRLF` is off): as it is, or in
double quotes with every double quote inside doubled. -/
def csvField (field : String) : String :=
  if fieldNeedsQuotes field then
    String.mk ([quoteChar] ++
      field.data.flatMap (fun c => if c == quoteChar then [quoteChar, quoteChar] else [c]) ++
      [quoteChar])
  else field

/-- One record as `Writer.Write` puts it out: the fields, comma separated, and a newline. -/
def csvLine (record : List String) : String :=
  String.intercalate "," (record.map csvField) ++ "\n"

/-- The bytes of a file holding these records. -/
def render (records : List (List String)) : String :=
  String.join (records.map csvLine)

/-! ## `saveToCSV` and `main` -/

/-- The header `saveToCSV` writes first. -/
def header : List String := ["Company", "Price", "Change"]

/-- The row `saveToCSV` writes for one record. -/
def row (stock : Stock) : List String := [stock.company, stock.price, stock.change]

/-- What a run leaves behind: the records held by `stocks.csv` (`none` when the
file does not exist), the console lines, and the exit code. -/
structure World where
  file : Option (List (List String))
  console : List Event
  exitCode : Nat
  deriving DecidableEq, Repr

/-- The call `os.Create("stocks.csv")`: it fails with `err` and leaves the file
as it was, or it gives an empty file, new or truncated. -/
def osCreate (createErr : Option String) (prior : Option (List (List String))) :
    Except String (List (List String)) :=
  match createErr with
  | some err => Except.error err
  | Option.none =>
    match prior with
    | Option.none => Except.ok []
    | some _ => Except.ok []

/-- The function `saveToCSV`.  When `os.Create` fails, `log.Fatalln` ends the
process with code 1 at once.  Otherwise the header and one row per record go
to the writer, and the deferred `Flush` moves what the writer holds to the
end of the file. -/
def saveToCSV (createErr : Option String) (w : World) (stocks : List Stock) : World :=
  match osCreate createErr w.file with
  | Except.error err => { w with console := w.console ++ [Event.fatalCreate err], exitCode := 1 }
  | Except.ok file =>
    let writer : List (List String) := []
    let writer := writer ++ [header]
    let writer := stocks.foldl (fun wr stock => wr ++ [row stock]) writer
    { w with file := some (file ++ writer), console := w.console ++ [Event.dataSaved] }

/-- The function `main`, run in the world `env` with `prior` as the earlier
state of `stocks.csv`. -/
def main (env : Env) (prior : Option (List (List String))) : World :=
  let s := scrape env
  saveToCSV env.createErr ⟨prior, s.console, 0⟩ s.stocks

/-! ## Vocabulary of the statements -/

/-- The records one fetch result contributes: none for an error, one per
`div.container` element of a fetched document. -/
def pageRecords : FetchResult → List Stock
  | FetchResult.error _ => []
  | FetchResult.ok doc => (matchAll selContainer doc).map mkStock

/-- The console lines one visit prints. -/
def pageEvents (url : String) : FetchResult → List Event
  | FetchResult.error err => [Event.visiting url, Event.errorOccurred err]
  | FetchResult.ok doc =>
    Event.visiting url :: (matchAll selContainer doc).map (fun e => Event.scraped (mkStock e))

/-- The URL of a `Visiting` line; nothing for any other line. -/
def visitingURL : Event → Option String
  | Event.visiting url => some url
  | _ => Option.none

/-- Did the fetch for this symbol give a document? -/
def fetchSucceeded (env : Env) (t : String) : Bool :=
  match env.fetch (quoteURL t) with
  | FetchResult.ok _ => true
  | FetchResult.error _ => false

/-- Does every fetched page hold exactly one `div.container` element? -/
def onePerPage (env : Env) : Bool :=
  ticker.all (fun t =>
    match env.fetch (quoteURL t) with
    | FetchResult.ok doc => (matchAll selContainer doc).length == 1
    | FetchResult.error _ => true)

/-- The row of the first record a symbol contributes. -/
def firstRow (env : Env) (t : String) : List String :=
  match pageRecords (env.fetch (quoteURL t)) with
  | st :: _ => row st
  | [] => []

/-! ## Sample documents and worlds -/

/-- A quote page with one `div.container` holding a heading and a price, and no
percent-change node. -/
def samplePage : Nodes :=
  Nodes.element "html" []
    (Nodes.element "body" []
      (Nodes.element "div" [("class", "main container")]
        (Nodes.element "h1" [] (Nodes.text " Microsoft Corporation (MSFT) " Nodes.none)
          (Nodes.element "fin-streamer" [("data-field", "regularMarketPrice")]
            (Nodes.text "410.10" Nodes.none) Nodes.none))
        Nodes.none)
      Nodes.none)
    Nodes.none

/-- A page with two `div.container` elements, one after the other. -/
def twinPage : Nodes :=
  Nodes.element "html" []
    (Nodes.element "body" []
      (Nodes.element "div" [("class", "container")]
        (Nodes.element "h1" [] (Nodes.text "Alpha" Nodes.none) Nodes.none)
        (Nodes.element "div" [("class", "container")]
          (Nodes.element "h1" [] (Nodes.text "Beta" Nodes.none) Nodes.none)
          Nodes.none))
      Nodes.none)
    Nodes.none

/-- A page without any `div.container` element. -/
def barePage : Nodes :=
  Nodes.element "html" []
    (Nodes.element "head" [] Nodes.none
      (Nodes.element "body" [] (Nodes.text "Please try again later." Nodes.none) Nodes.none))
    Nodes.none

/-- A world where IBM cannot be fetched and every other symbol answers `samplePage`. -/
def sampleEnv : Env :=
  ⟨fun url => if url = quoteURL "IBM" then FetchResult.error "Not Found"
    else FetchResult.ok samplePage, fun _ => [], Option.none⟩

/-- A world where every fetch fails. -/
def offlineEnv : Env := ⟨fun _ => FetchResult.error "no such host", fun _ => [], Option.none⟩

/-- A world where the file cannot be created. -/
def readOnlyEnv : Env :=
  ⟨fun _ => FetchResult.ok samplePage, fun _ => [],
    some "open stocks.csv: permission denied"⟩

/-- A world where MSFT answers `twinPage`, IBM fails, and the other three
symbols answer `barePage`. -/
def unevenEnv : Env :=
  ⟨fun url => if url = quoteURL "MSFT" then FetchResult.ok twinPage
    else if url = quoteURL "IBM" then FetchResult.error "Not Found"
    else FetchResult.ok barePage, fun _ => [], Option.none⟩

/-- A world where the request for MSFT is redirected once, to a consent page,
and every request ends with `barePage`. -/
def redirectEnv : Env :=
  ⟨fun _ => FetchResult.ok barePage,
    fun url => if url = quoteURL "MSFT" then ["https://consent.yahoo.com/v2/collectConsent"]
      else [],
    Option.none⟩

/-! ## Lemmas on the collector -/

theorem foldl_onHTML (es : List HTMLElement) (s : Scraper) :
    es.foldl onHTML s =
      ⟨s.stocks ++ es.map mkStock, s.visited, s.requests,
        s.console ++ es.map (fun e => Event.scraped (mkStock e))⟩ := by
  induction es generalizing s with
  | nil => simp
  | cons e es ih => simp [ih, onHTML]

theorem handleOnHTML_eq (s : Scraper) (doc : Nodes) :
    handleOnHTML s doc =
      ⟨s.stocks ++ (matchAll selContainer doc).map mkStock, s.visited, s.requests,
        s.console ++ (matchAll selContainer doc).map (fun e => Event.scraped (mkStock e))⟩ := by
  simp [handleOnHTML, foldl_onHTML]

theorem Visit_fresh (env : Env) (s : Scraper) (url : String) (h : url ∉ s.visited) :
    Visit env s url =
      ⟨s.stocks ++ pageRecords (env.fetch url), s.visited ++ [url],
        s.requests ++ url :: env.redirects url,
        s.console ++ pageEvents url (env.fetch url)⟩ := by
  unfold Visit
  rw [if_neg h]
  unfold fetch
  cases hf : env.fetch url with
  | error err => simp [onError, onRequest, pageRecords, pageEvents]
  | ok doc => simp [handleOnHTML_eq, onRequest, pageRecords, pageEvents]

theorem visitAll_fresh (env : Env) (ts : List String) (s : Scraper)
    (hnd : (ts.map quoteURL).Nodup) (hnew : ∀ t ∈ ts, quoteURL t ∉ s.visited) :
    visitAll env s ts =
      ⟨s.stocks ++ ts.flatMap (fun t => pageRecords (env.fetch (quoteURL t))),
        s.visited ++ ts.map quoteURL,
        s.requests ++ ts.flatMap (fun t => quoteURL t :: env.redirects (quoteURL t)),
        s.console ++ ts.flatMap (fun t => pageEvents (quoteURL t) (env.fetch (quoteURL t)))⟩ := by
  induction ts generalizing s with
  | nil => simp [visitAll]
  | cons t ts ih =>
    have ht : quoteURL t ∉ s.visited := hnew t (List.mem_cons_self _ _)
    rw [List.map_cons, List.nodup_cons] at hnd
    have hstep : visitAll env s (t :: ts) = visitAll env (Visit env s (quoteURL t)) ts := by
      simp [visitAll]
    rw [hstep, Visit_fresh env s _ ht, ih _ hnd.2]
    · simp [List.flatMap_cons]
    · intro t2 ht2
      simp only [List.mem_append, List.mem_singleton, not_or]
      refine ⟨hnew t2 (List.mem_cons_of_mem _ ht2), ?_⟩
      intro heq
      exact hnd.1 (heq ▸ List.mem_map_of_mem quoteURL ht2)

theorem ticker_urls_nodup : (ticker.map quoteURL).Nodup := by decide

theorem scrape_eq (env : Env) :
    scrape env =
      ⟨ticker.flatMap (fun t => pageRecords (env.fetch (quoteURL t))),
        ticker.map quoteURL,
        ticker.flatMap (fun t => quoteURL t :: env.redirects (quoteURL t)),
        ticker.flatMap (fun t => pageEvents (quoteURL t) (env.fetch (quoteURL t)))⟩ := by
  unfold scrape
  rw [visitAll_fresh env ticker Scraper.init ticker_urls_nodup (by simp [Scraper.init])]
  simp [Scraper.init]

theorem foldl_write_rows (stocks : List Stock) (wr : List (List String)) :
    stocks.foldl (fun wr stock => wr ++ [row stock]) wr = wr ++ stocks.map row := by
  induction stocks generalizing wr with
  | nil => simp
  | cons st stocks ih => simp [ih]

theorem saveToCSV_ok (w : World) (stocks : List Stock) :
    saveToCSV Option.none w stocks =
      ⟨some (header :: stocks.map row), w.console ++ [Event.dataSaved], w.exitCode⟩ := by
  unfold saveToCSV osCreate
  cases w.file <;> simp [foldl_write_rows]

theorem saveToCSV_error (err : String) (w : World) (stocks : List Stock) :
    saveToCSV (some err) w stocks =
      ⟨w.file, w.console ++ [Event.fatalCreate err], 1⟩ := by
  simp [saveToCSV, osCreate]

theorem rows_of_onePerPage (env : Env) (l : List String)
    (h : ∀ t ∈ l, match env.fetch (quoteURL t) with
      | FetchResult.ok doc => (matchAll selContainer doc).length = 1
      | FetchResult.error _ => True) :
    l.flatMap (fun t => (pageRecords (env.fetch (quoteURL t))).map row) =
      (l.filter (fetchSucceeded env)).map (firstRow env) := by
  induction l with
  | nil => simp
  | cons t l ih =>
    have ht := h t (List.mem_cons_self _ _)
    have hl := ih (fun b hb => h b (List.mem_cons_of_mem _ hb))
    rw [List.flatMap_cons, hl]
    cases hf : env.fetch (quoteURL t) with
    | error err => simp [pageRecords, fetchSucceeded, hf]
    | ok doc =>
      rw [hf] at ht
      simp only at ht
      obtain ⟨e, he⟩ := List.length_eq_one.mp ht
      simp [pageRecords, fetchSucceeded, firstRow, hf, he]

theorem filterMap_visiting_pageEvents (env : Env) (ts : List String) :
    (ts.flatMap (fun t => pageEvents (quoteURL t) (env.fetch (quoteURL t)))).filterMap
      visitingURL = ts.map quoteURL := by
  induction ts with
  | nil => simp
  | cons t ts ih =>
    rw [List.flatMap_cons, List.filterMap_append, ih, List.map_cons]
    have hone : (pageEvents (quoteURL t) (env.fetch (quoteURL t))).filterMap visitingURL =
        [quoteURL t] := by
      cases hf : env.fetch (quoteURL t) with
      | error err => simp [pageEvents, visitingURL]
      | ok doc =>
        simp only [pageEvents, List.filterMap_cons, visitingURL]
        have hnone : ∀ es : List HTMLElement,
            (es.map (fun e => Event.scraped (mkStock e))).filterMap visitingURL = [] := by
          intro es
          induction es with
          | nil => rfl
          | cons e es ihe => simp [List.filterMap_cons, visitingURL, ihe]
        rw [hnone]
    rw [hone]
    rfl

/-! ## The claims -/

/-- C1: when the file can be created, `saveToCSV` leaves `len(stocks)+1` rows in
`stocks.csv`: the header `Company, Price, Change`, then the row
`company, price, change` of every record, in list order. -/
theorem saveToCSV_writes_header_then_rows (w : World) (stocks : List Stock) :
    (saveToCSV Option.none w stocks).file =
      some (["Company", "Price", "Change"] ::
        stocks.map (fun st => [st.company, st.price, st.change])) ∧
    (saveToCSV Option.none w stocks).file.map List.length = some (stocks.length + 1) := by
  rw [saveToCSV_ok]
  simp [header, row]

/-- C5: when the file can be created and no record was scraped, `main` leaves
`stocks.csv` with the header row alone, the bytes `Company,Price,Change` and
a newline, and ends with code 0. -/
theorem main_no_records_header_only (env : Env) (prior : Option (List (List String)))
    (hc : env.createErr = Option.none) (h0 : (scrape env).stocks = []) :
    (main env prior).file = some [["Company", "Price", "Change"]] ∧
    (main env prior).file.map render = some "Company,Price,Change\n" ∧
    (main env prior).exitCode = 0 := by
  have hm : main env prior = ⟨some [header], (scrape env).console ++ [Event.dataSaved], 0⟩ := by
    unfold main
    simp only [hc, h0, saveToCSV_ok, List.map_nil]
  rw [hm]
  refine ⟨rfl, ?_, rfl⟩
  show some (render [header]) = some "Company,Price,Change\n"
  decide

/-- Witness of C5: the offline world, with an older file in place. -/
theorem main_no_records_header_only_witness :
    offlineEnv.createErr = Option.none ∧ (scrape offlineEnv).stocks = [] ∧
    (main offlineEnv (some [["stale"]])).file = some [["Company", "Price", "Change"]] :=
  ⟨rfl, by decide,
    (main_no_records_header_only offlineEnv (some [["stale"]]) rfl (by decide)).1⟩

/-- C6: `main` ends with the fatal exit code 1 exactly when `os.Create` fails and
with code 0 otherwise; the exit code is the same whatever the fetches answer. -/
theorem main_fatal_iff_create_fails (env : Env) (prior : Option (List (List String))) :
    ((main env prior).exitCode = 1 ↔ env.createErr ≠ Option.none) ∧
    ((main env prior).exitCode = 0 ↔ env.createErr = Option.none) ∧
    (∀ (fetch2 : String → FetchResult) (redirects2 : String → List String)
        (prior2 : Option (List (List String))),
      (main ⟨fetch2, redirects2, env.createErr⟩ prior2).exitCode = (main env prior).exitCode) := by
  unfold main
  cases hc : env.createErr with
  | none => simp [saveToCSV_ok]
  | some err => simp [saveToCSV_error]

/-- C7, refuted as stated: in `readOnlyEnv` the file cannot be created, and
before the fatal line that ends the run the console already shows what the
requests brought back: the second of its eleven lines is the `Scraped` line
of the MSFT record. -/
theorem scraped_lines_precede_create_failure :
    readOnlyEnv.createErr = some "open stocks.csv: permission denied" ∧
    (main readOnlyEnv Option.none).exitCode = 1 ∧
    (main readOnlyEnv Option.none).console.length = 11 ∧
    (main readOnlyEnv Option.none).console.take 2 =
      [Event.visiting "https://finance.yahoo.com/quote/MSFT/",
       Event.scraped ⟨"Microsoft Corporation (MSFT)", "410.10", ""⟩] ∧
    (main readOnlyEnv Option.none).console.getLast? =
      some (Event.fatalCreate "open stocks.csv: permission denied") := by
  decide

/-- C7, amended: when `os.Create` fails, whatever the fetches answered,
`stocks.csv` is left as it was (no header, no record is written) and `main`
ends with code 1.  The failure comes after the five visits: the console holds
all the lines of the visits, among them the `Scraped` line of every record
collected, and the fatal line after them. -/
theorem main_create_failure_writes_nothing (fetch : String → FetchResult)
    (redirects : String → List String) (err : String)
    (prior : Option (List (List String))) :
    (main ⟨fetch, redirects, some err⟩ prior).file = prior ∧
    (main ⟨fetch, redirects, some err⟩ prior).exitCode = 1 ∧
    (main ⟨fetch, redirects, some err⟩ prior).console =
      (scrape ⟨fetch, redirects, some err⟩).console ++ [Event.fatalCreate err] ∧
    (∀ st ∈ (scrape ⟨fetch, redirects, some err⟩).stocks,
      Event.scraped st ∈ (main ⟨fetch, redirects, some err⟩ prior).console) := by
  refine ⟨by simp [main, saveToCSV_error], by simp [main, saveToCSV_error],
    by simp [main, saveToCSV_error], ?_⟩
  intro st hst
  have hcons : (main ⟨fetch, redirects, some err⟩ prior).console =
      (scrape ⟨fetch, redirects, some err⟩).console ++ [Event.fatalCreate err] := by
    simp [main, saveToCSV_error]
  rw [hcons]
  rw [scrape_eq] at hst ⊢
  simp only [List.mem_flatMap] at hst
  obtain ⟨t, ht, hmem⟩ := hst
  apply List.mem_append_left
  simp only [List.mem_flatMap]
  refine ⟨t, ht, ?_⟩
  cases hf : fetch (quoteURL t) with
  | error e => simp [hf, pageRecords] at hmem
  | ok doc =>
    simp only [hf, pageRecords, List.mem_map] at hmem
    obtain ⟨e, he, rfl⟩ := hmem
    simp only [hf, pageEvents, List.mem_cons, List.mem_map]
    exact Or.inr ⟨e, he, rfl⟩

/-- C8: `saveToCSV` overwrites: when the file can be created, the file afterwards
is the header and the rows of the given list, the same for every earlier
content, and saving the same list twice leaves what saving it once leaves;
so the file `main` leaves does not depend on the earlier file. -/
theorem saveToCSV_overwrites (stocks : List Stock) (w1 w2 : World) :
    (saveToCSV Option.none w1 stocks).file = some (header :: stocks.map row) ∧
    (saveToCSV Option.none w1 stocks).file = (saveToCSV Option.none w2 stocks).file ∧
    (saveToCSV Option.none (saveToCSV Option.none w1 stocks) stocks).file =
      (saveToCSV Option.none w1 stocks).file ∧
    (∀ (fetch : String → FetchResult) (redirects : String → List String)
        (p1 p2 : Option (List (List String))),
      (main ⟨fetch, redirects, Option.none⟩ p1).file =
        (main ⟨fetch, redirects, Option.none⟩ p2).file) := by
  simp [main, saveToCSV_ok]

/-- C9, refuted as stated: in `redirectEnv` the request for MSFT is redirected,
and `main` sends six GET requests, one of them to a URL outside the five. -/
theorem requests_exceed_ticker_urls :
    (scrape redirectEnv).requests =
      ["https://finance.yahoo.com/quote/MSFT/", "https://consent.yahoo.com/v2/collectConsent",
       "https://finance.yahoo.com/quote/IBM/", "https://finance.yahoo.com/quote/AAPL/",
       "https://finance.yahoo.com/quote/GOOG/", "https://finance.yahoo.com/quote/AMZN/"] ∧
    (scrape redirectEnv).requests ≠ ticker.map quoteURL := by
  decide

/-- C9, amended: whatever the fetches answer, `main` has the collector visit the
five quote URLs of MSFT, IBM, AAPL, GOOG, AMZN, in that order, each once, and
prints one `Visiting` line for each.  Each visit sends one GET to its URL,
followed by the GETs to the redirect targets of that request; in a world
without redirects the GET requests are exactly the five URLs. -/
theorem scrape_requests_fixed (env : Env) :
    (scrape env).visited =
      ["https://finance.yahoo.com/quote/MSFT/", "https://finance.yahoo.com/quote/IBM/",
       "https://finance.yahoo.com/quote/AAPL/", "https://finance.yahoo.com/quote/GOOG/",
       "https://finance.yahoo.com/quote/AMZN/"] ∧
    (scrape env).console.filterMap visitingURL = ticker.map quoteURL ∧
    (scrape env).requests =
      ticker.flatMap (fun t => quoteURL t :: env.redirects (quoteURL t)) ∧
    (scrape ⟨env.fetch, fun _ => [], env.createErr⟩).requests =
      ["https://finance.yahoo.com/quote/MSFT/", "https://finance.yahoo.com/quote/IBM/",
       "https://finance.yahoo.com/quote/AAPL/", "https://finance.yahoo.com/quote/GOOG/",
       "https://finance.yahoo.com/quote/AMZN/"] := by
  have hurls : ticker.map quoteURL =
      ["https://finance.yahoo.com/quote/MSFT/", "https://finance.yahoo.com/quote/IBM/",
       "https://finance.yahoo.com/quote/AAPL/", "https://finance.yahoo.com/quote/GOOG/",
       "https://finance.yahoo.com/quote/AMZN/"] := by decide
  refine ⟨?_, ?_, ?_, ?_⟩
  · rw [scrape_eq]
    exact hurls
  · rw [scrape_eq]
    exact filterMap_visiting_pageEvents env ticker
  · rw [scrape_eq]
  · rw [scrape_eq, ← hurls]
    simp [ticker]

/-- C2, refuted as stated: in `unevenEnv` four symbols are fetched successfully,
yet the file holds two data rows, both from the MSFT page, and none for AAPL,
GOOG or AMZN, whose pages have no `div.container` element. -/
theorem one_row_per_fetched_symbol_fails :
    unevenEnv.createErr = Option.none ∧
    ticker.filter (fetchSucceeded unevenEnv) = ["MSFT", "AAPL", "GOOG", "AMZN"] ∧
    (main unevenEnv Option.none).file =
      some [["Company", "Price", "Change"], ["Alpha", "", ""], ["Beta", "", ""]] := by
  decide

/-- C2, amended: when the file can be created, the data rows are, in ticker
order, the rows of the records of each symbol: none for a symbol whose fetch
failed, one per `div.container` element, in document order, for a fetched
page.  When every fetched page holds exactly one such element, that is one
row for each symbol whose fetch succeeded, in ticker order. -/
theorem csv_rows_follow_containers (env : Env) (prior : Option (List (List String)))
    (hc : env.createErr = Option.none) :
    (main env prior).file =
      some (header :: ticker.flatMap (fun t => (pageRecords (env.fetch (quoteURL t))).map row)) ∧
    (onePerPage env = true →
      (main env prior).file =
        some (header :: (ticker.filter (fetchSucceeded env)).map (firstRow env))) := by
  have hm : (main env prior).file =
      some (header :: ticker.flatMap (fun t => (pageRecords (env.fetch (quoteURL t))).map row)) := by
    unfold main
    rw [hc, saveToCSV_ok, scrape_eq]
    simp [List.map_flatMap]
  refine ⟨hm, fun hone => ?_⟩
  rw [hm, rows_of_onePerPage env ticker]
  intro t ht
  have := List.all_eq_true.mp hone t ht
  cases hf : env.fetch (quoteURL t) with
  | error err => trivial
  | ok doc => simpa [hf] using this

/-- Witness of C2 amended: `sampleEnv`, where IBM fails and the four other pages
hold one container each. -/
theorem csv_rows_follow_containers_witness :
    sampleEnv.createErr = Option.none ∧ onePerPage sampleEnv = true ∧
    (main sampleEnv Option.none).file =
      some (header :: (ticker.filter (fetchSucceeded sampleEnv)).map (firstRow sampleEnv)) :=
  ⟨rfl, by decide, (csv_rows_follow_containers sampleEnv Option.none rfl).2 (by decide)⟩

/-- C4: when the fetch of a symbol fails, the visit adds two console lines (the
request and the error) and leaves the records collected so far as they were;
the loop goes on with the later symbols, so all five URLs are visited and
requested and the records of the later symbols follow those collected before. -/
theorem fetch_failure_only_logged (env : Env) (pre post : List String) (t err : String)
    (hsplit : ticker = pre ++ t :: post)
    (hfail : env.fetch (quoteURL t) = FetchResult.error err) :
    (Visit env (visitAll env Scraper.init pre) (quoteURL t)).stocks =
      (visitAll env Scraper.init pre).stocks ∧
    (Visit env (visitAll env Scraper.init pre) (quoteURL t)).console =
      (visitAll env Scraper.init pre).console ++
        [Event.visiting (quoteURL t), Event.errorOccurred err] ∧
    scrape env = visitAll env (Visit env (visitAll env Scraper.init pre) (quoteURL t)) post ∧
    (scrape env).visited = pre.map quoteURL ++ quoteURL t :: post.map quoteURL ∧
    (scrape env).requests =
      (visitAll env Scraper.init pre).requests ++
        (quoteURL t :: env.redirects (quoteURL t)) ++
        post.flatMap (fun u => quoteURL u :: env.redirects (quoteURL u)) ∧
    (scrape env).stocks =
      (visitAll env Scraper.init pre).stocks ++
        post.flatMap (fun u => pageRecords (env.fetch (quoteURL u))) := by
  have hnd := ticker_urls_nodup
  rw [hsplit, List.map_append, List.map_cons] at hnd
  have hpre : (pre.map quoteURL).Nodup := (List.nodup_append.mp hnd).1
  have ht : quoteURL t ∉ pre.map quoteURL := fun hmem =>
    (List.nodup_append.mp hnd).2.2 hmem (List.mem_cons_self _ _)
  have hbefore := visitAll_fresh env pre Scraper.init hpre (by simp [Scraper.init])
  have hvis : quoteURL t ∉ (visitAll env Scraper.init pre).visited := by
    rw [hbefore]
    simpa [Scraper.init] using ht
  have hrun : scrape env =
      visitAll env (Visit env (visitAll env Scraper.init pre) (quoteURL t)) post := by
    unfold scrape
    rw [hsplit]
    simp [visitAll, List.foldl_append]
  have hall := scrape_eq env
  rw [hsplit] at hall
  refine ⟨?_, ?_, hrun, ?_, ?_⟩
  · rw [Visit_fresh env _ _ hvis, hfail]
    simp [pageRecords]
  · rw [Visit_fresh env _ _ hvis, hfail]
    simp [pageEvents]
  · rw [hall]
    simp
  · rw [hall, hbefore]
    simp [Scraper.init, List.flatMap_append, List.flatMap_cons, hfail, pageRecords]

/-- Witness of C4: in `sampleEnv` the fetch of IBM, the second symbol, fails. -/
theorem fetch_failure_only_logged_witness :
    ticker = ["MSFT"] ++ "IBM" :: ["AAPL", "GOOG", "AMZN"] ∧
    sampleEnv.fetch (quoteURL "IBM") = FetchResult.error "Not Found" ∧
    (Visit sampleEnv (visitAll sampleEnv Scraper.init ["MSFT"]) (quoteURL "IBM")).stocks =
      (visitAll sampleEnv Scraper.init ["MSFT"]).stocks :=
  ⟨by decide, by decide,
    (fetch_failure_only_logged sampleEnv ["MSFT"] ["AAPL", "GOOG", "AMZN"] "IBM" "Not Found"
      (by decide) (by decide)).1⟩

end StockScraper
